import Mathlib

/-!
Verification development for go-github-sync.

The repository generates a GitHub Actions workflow that synchronizes a
primary repository into a GitHub mirror.  This file gives a shallow
embedding of the program's pure logic:

* `pkg/config`   : `Load` (flag/environment validation) and the interval enum;
* the workflow package : `getCronSchedule`, `generateSyncScript`,
  `generateWorkflowYAML` (the YAML value it builds and the deterministic,
  key-sorting encoder of gopkg.in/yaml.v3 that serializes it), `addComments`;
* `pkg/git/ops.go` : `validateRepoURL` and `parseGitHubURL`, including the
  behaviour of Go's `net/url.Parse` scheme scanner on which they depend;
* the github package : `SetupWorkflow`'s create-or-update decision and
  `parseGitHubURL`.

Go strings are modelled as Lean `String`s; the Go `strings` helpers used by
the source (`HasPrefix`, `HasSuffix`, `TrimPrefix`, `TrimSuffix`, `Split`,
`Contains` on a single character, ASCII `ToLower`) are re-defined here on
the character list of the string so that every definition is executable and
kernel-reducible.
-/

namespace GoSync

/-! ### Go string primitives -/

/-- Boolean list-prefix test (Go `strings.HasPrefix`, on `String.data`). -/
def isPrefB : List Char → List Char → Bool
  | [], _ => true
  | _ :: _, [] => false
  | a :: as, b :: bs => if a = b then isPrefB as bs else false

/-- Go `strings.HasPrefix`. -/
def hasPrefixB (s pre : String) : Bool := isPrefB pre.data s.data

/-- Go `strings.HasSuffix`: a suffix is a prefix of the reversal. -/
def hasSuffixB (s suf : String) : Bool := isPrefB suf.data.reverse s.data.reverse

/-- Boolean membership of a character in a character list. -/
def memB (c : Char) : List Char → Bool
  | [] => false
  | x :: xs => if x = c then true else memB c xs

/-- Go `strings.Contains(s, string(c))` for a single character `c`. -/
def containsCharB (s : String) (c : Char) : Bool := memB c s.data

/-- Go `strings.Split` on a single separator character, over char lists:
splits at every occurrence of `c`, keeping empty fields. -/
def splitOnCharL (c : Char) : List Char → List (List Char)
  | [] => [[]]
  | x :: xs =>
    if x = c then [] :: splitOnCharL c xs
    else
      match splitOnCharL c xs with
      | [] => [[x]]
      | h :: t => (x :: h) :: t

/-- Go `strings.Split(s, "/")`, returning strings. -/
def splitOnSlash (s : String) : List String :=
  (splitOnCharL '/' s.data).map (fun l => (⟨l⟩ : String))

/-- Go `strings.TrimPrefix`. -/
def trimPrefixStr (s pre : String) : String :=
  if hasPrefixB s pre then ⟨s.data.drop pre.data.length⟩ else s

/-- Go `strings.TrimSuffix`. -/
def trimSuffixStr (s suf : String) : String :=
  if hasSuffixB s suf then ⟨s.data.take (s.data.length - suf.data.length)⟩ else s

/-- Go `strings.ToLower`, for the ASCII inputs the program deals with. -/
def goToLower (s : String) : String := ⟨s.data.map Char.toLower⟩

/-- Splits a char list at the first occurrence of `c`: returns the segment
before it and, when `c` occurs, the remainder after it. -/
def breakAtChar (c : Char) : List Char → List Char × Option (List Char)
  | [] => ([], none)
  | x :: xs =>
    if x = c then ([], some xs)
    else
      let r := breakAtChar c xs
      (x :: r.1, r.2)

/-- Substring test used for Go `strings.Contains` with a multi-character
pattern. -/
def isInfB (a : List Char) : List Char → Bool
  | [] => isPrefB a []
  | x :: xs => if isPrefB a (x :: xs) then true else isInfB a xs

/-- Go `strings.Contains`. -/
def containsSubB (s sub : String) : Bool := isInfB sub.data s.data

/-- `ensureGitExtension` from `pkg/git/ops.go`: appends `.git` when absent. -/
def ensureGitExtension (repoURL : String) : String :=
  if hasSuffixB repoURL ".git" then repoURL else repoURL ++ ".git"

/-! ### Configuration model (`pkg/config/config.go`) -/

/-- `Config` from `pkg/config/config.go`. -/
structure Config where
  GithubToken : String
  PrimaryRepo : String
  MirrorRepo : String
  PrimaryBranch : String
  MirrorBranch : String
  SyncInterval : String
  ForceSync : Bool
  OutputFile : String
  SetupWorkflow : Bool
  Verbose : Bool
deriving Repr, DecidableEq

/-- `Load` from `pkg/config/config.go`, as a function of the two token
environment variables and the parsed flag values.  The checks run in the
source's order: token presence (only when `--setup` is given), required
repositories, then the case-insensitive interval validation.  Note that the
`Config` keeps the raw `syncInterval` string, not its lowercase form. -/
def loadConfig (ghTokenEnv githubTokenEnv primaryRepo mirrorRepo primaryBranch
    mirrorBranch syncInterval : String) (forceSync : Bool) (outputFile : String)
    (setupWorkflow verbose : Bool) : Except String Config :=
  let githubToken := if ghTokenEnv = "" then githubTokenEnv else ghTokenEnv
  if githubToken = "" ∧ setupWorkflow then
    .error "GitHub token not found in environment (GH_TOKEN or GITHUB_TOKEN) but required for --setup"
  else if primaryRepo = "" then .error "primary repository URL is required"
  else if mirrorRepo = "" then .error "mirror repository URL is required"
  else if goToLower syncInterval = "hourly" ∨ goToLower syncInterval = "daily" ∨
      goToLower syncInterval = "weekly" then
    .ok { GithubToken := githubToken, PrimaryRepo := primaryRepo,
          MirrorRepo := mirrorRepo, PrimaryBranch := primaryBranch,
          MirrorBranch := mirrorBranch, SyncInterval := syncInterval,
          ForceSync := forceSync, OutputFile := outputFile,
          SetupWorkflow := setupWorkflow, Verbose := verbose }
  else
    .error ("invalid sync interval: " ++ syncInterval ++ " (must be hourly, daily, or weekly)")

/-! ### Workflow generation (the workflow package) -/

/-- `WorkflowTemplate` from the workflow package. -/
structure WorkflowTemplate where
  PrimaryRepo : String
  MirrorRepo : String
  PrimaryBranch : String
  MirrorBranch : String
  CronSchedule : String
  ForceSync : Bool
deriving Repr, DecidableEq

/-- `getCronSchedule`: interval to cron expression, defaulting to hourly. -/
def getCronSchedule (interval : String) : String :=
  if interval = "hourly" then "0 * * * *"
  else if interval = "daily" then "0 0 * * *"
  else if interval = "weekly" then "0 0 * * 0"
  else "0 * * * *"

/-- The template data prepared by `Generator.Generate`. -/
def templateOfConfig (cfg : Config) : WorkflowTemplate :=
  { PrimaryRepo := cfg.PrimaryRepo, MirrorRepo := cfg.MirrorRepo,
    PrimaryBranch := cfg.PrimaryBranch, MirrorBranch := cfg.MirrorBranch,
    CronSchedule := getCronSchedule cfg.SyncInterval, ForceSync := cfg.ForceSync }

/-- Lines of `generateSyncScript`'s output that precede the
force-vs-merge conditional (the text of the Go template up to
`\x7b\x7bif .ForceSync\x7d\x7d`, split at newlines). -/
def syncScriptCommonPre (d : WorkflowTemplate) : List String := [
  "# Add the primary repository as a remote",
  "git remote add primary " ++ d.PrimaryRepo,
  "",
  "# Fetch the latest changes from the primary repository",
  "git fetch primary",
  "",
  "# Check if the primary branch exists in the primary repository",
  "if git ls-remote --heads primary " ++ d.PrimaryBranch ++ " | grep -q " ++ d.PrimaryBranch ++ "; then",
  "  echo \"Primary branch " ++ d.PrimaryBranch ++ " found in primary repository\"",
  "else",
  "  echo \"Error: Primary branch " ++ d.PrimaryBranch ++ " not found in primary repository\"",
  "  exit 1",
  "fi",
  "",
  "# Check if we\x27re already on the mirror branch",
  "if git rev-parse --verify --quiet " ++ d.MirrorBranch ++ "; then",
  "  git checkout " ++ d.MirrorBranch,
  "else",
  "  # Create the mirror branch if it doesn\x27t exist",
  "  git checkout -b " ++ d.MirrorBranch,
  "fi",
  ""]

/-- Lines produced by the `ForceSync = true` template branch. -/
def forceSyncLines (d : WorkflowTemplate) : List String := [
  "",
  "# Force-apply all changes from primary, overriding any conflicts",
  "echo \"Performing force sync from primary/" ++ d.PrimaryBranch ++ " to " ++ d.MirrorBranch ++ "\"",
  "git reset --hard primary/" ++ d.PrimaryBranch]

/-- Lines produced by the `ForceSync = false` template branch. -/
def mergeSyncLines (d : WorkflowTemplate) : List String := [
  "",
  "# Attempt to merge changes from primary",
  "echo \"Attempting to merge changes from primary/" ++ d.PrimaryBranch ++ " to " ++ d.MirrorBranch ++ "\"",
  "if ! git merge primary/" ++ d.PrimaryBranch ++ " --no-edit; then",
  "  # If merge fails, prefer the primary repository\x27s changes",
  "  echo \"Merge conflict detected, preferring primary repository\x27s changes\"",
  "  git checkout --theirs .",
  "  git add .",
  "  git commit -m \"Merge primary repository, preferring primary changes in conflicts\"",
  "fi"]

/-- Lines of the template text after the conditional. -/
def syncScriptCommonPost (d : WorkflowTemplate) : List String := [
  "",
  "",
  "# Push changes back to the mirror repository",
  "git push origin " ++ d.MirrorBranch]

/-- All lines of the synthesized sync script, in order. -/
def syncScriptLines (d : WorkflowTemplate) : List String :=
  syncScriptCommonPre d ++
    (if d.ForceSync then forceSyncLines d else mergeSyncLines d) ++
    syncScriptCommonPost d

/-- `generateSyncScript`: the rendered shell script text. -/
def generateSyncScript (d : WorkflowTemplate) : String :=
  String.intercalate "\n" (syncScriptLines d)

/-! ### The workflow YAML value and its serialization

`generateWorkflowYAML` builds nested Go maps/slices and serializes them with
gopkg.in/yaml.v3.  `Yaml` is the value tree; the entry lists below give the
map contents in the order of the source's map literals.  yaml.v3's encoder
(`encode.go`, `mapv`) sorts the keys of every Go map before emitting it, so
serialization is a deterministic function of the map contents; `renderYaml`
models that encoder (sorted keys, two-space indentation, fuel bounding the
nesting depth, which is at most 7 for this document). -/

inductive Yaml where
  | str : String → Yaml
  | int : Int → Yaml
  | seq : List Yaml → Yaml
  | map : List (String × Yaml) → Yaml

/-- Byte-wise comparison of key strings (yaml.v3's `keyList` ordering
restricted to the plain, non-numeric keys this document uses). -/
def charListLE : List Char → List Char → Bool
  | [], _ => true
  | _ :: _, [] => false
  | a :: as, b :: bs => if a < b then true else if b < a then false else charListLE as bs

/-- Key order used by the encoder. -/
def keyLE (a b : String) : Bool := charListLE a.data b.data

/-- Insertion into a key-sorted entry list. -/
def insertPair {α : Type} (p : String × α) : List (String × α) → List (String × α)
  | [] => [p]
  | q :: t => if keyLE p.1 q.1 then p :: q :: t else q :: insertPair p t

/-- Sorts map entries by key, as yaml.v3 does before emitting a mapping. -/
def sortPairs {α : Type} : List (String × α) → List (String × α)
  | [] => []
  | p :: t => insertPair p (sortPairs t)

/-- A run of `n` spaces. -/
def spacesStr : Nat → String
  | 0 => ""
  | n + 1 => " " ++ spacesStr n

/-- Modelled yaml.v3 block-style encoder: mappings are emitted with their
keys sorted, nested nodes indented two further columns. -/
def renderYaml (fuel : Nat) (ind : Nat) (v : Yaml) : String :=
  match fuel with
  | 0 => ""
  | f + 1 =>
    match v with
    | .str s => s
    | .int n => toString n
    | .seq [] => "[]"
    | .seq items =>
      String.intercalate "\n"
        (items.map (fun it => spacesStr ind ++ "- " ++ renderYaml f (ind + 2) it))
    | .map [] => "\x7b\x7d"
    | .map es =>
      String.intercalate "\n" ((sortPairs es).map (fun kv =>
        spacesStr ind ++ kv.1 ++ ":" ++
        (match kv.2 with
         | .map [] => " \x7b\x7d"
         | .seq [] => " []"
         | .map (_ :: _) => "\n" ++ renderYaml f (ind + 2) kv.2
         | .seq (_ :: _) => "\n" ++ renderYaml f (ind + 2) kv.2
         | _ => " " ++ renderYaml f (ind + 2) kv.2)))

/-- Serialization of a document, ending in a newline as yaml.v3's encoder
does. -/
def renderDoc (v : Yaml) : String := renderYaml 16 0 v ++ "\n"

/-- The four steps of the `sync` job, in slice order. -/
def syncStepsYaml (d : WorkflowTemplate) : List Yaml := [
  .map [("name", .str "Validate Github Actions Environment"),
        ("run", .str "if [ \"$GITHUB_ACTIONS\" != \"true\" ]; then echo \x27This script must be run in a GitHub Actions environment.\x27; exit 1; fi")],
  .map [("name", .str "Checkout GitHub Mirror"),
        ("uses", .str "actions/checkout@v3"),
        ("with", .map [("fetch-depth", .int 0)])],
  .map [("name", .str "Configure Git"),
        ("run", .str "git config user.name \x27GitHub Actions\x27\ngit config user.email \x27actions@github.com\x27")],
  .map [("name", .str "Sync Primary Repository"),
        ("run", .str (generateSyncScript d)),
        ("env", .map [("GITHUB_TOKEN", .str "$\x7b\x7b secrets.GITHUB_TOKEN \x7d\x7d")])]]

/-- Entries of the `on` map literal, in source order. -/
def onEntries (d : WorkflowTemplate) : List (String × Yaml) := [
  ("push", .map []),
  ("schedule", .seq [.map [("cron", .str d.CronSchedule)]]),
  ("workflow_dispatch", .map [])]

/-- Entries of the `jobs` map literal. -/
def jobsEntries (d : WorkflowTemplate) : List (String × Yaml) := [
  ("sync", .map [
    ("runs-on", .str "ubuntu-latest"),
    ("steps", .seq (syncStepsYaml d))])]

/-- Entries of the top-level workflow map literal, in source order. -/
def workflowEntries (d : WorkflowTemplate) : List (String × Yaml) := [
  ("name", .str "Sync Primary Repository to GitHub Mirror"),
  ("on", .map (onEntries d)),
  ("jobs", .map (jobsEntries d))]

/-- The workflow document value built by `generateWorkflowYAML`. -/
def workflowValue (d : WorkflowTemplate) : Yaml := .map (workflowEntries d)

/-- The fixed comment header prepended by `addComments`. -/
def yamlHeader : String :=
  "# GitHub Actions workflow file to sync an external repository to this GitHub mirror.\n" ++
  "# This file was automatically generated by go-github-sync.\n" ++
  "#\n" ++
  "# The workflow does the following:\n" ++
  "# - Runs on a scheduled basis (and can also be triggered manually)\n" ++
  "# - Clones the GitHub mirror repository\n" ++
  "# - Fetches changes from the primary external repository\n" ++
  "# - Applies those changes to the mirror repository\n" ++
  "# - Pushes the updated content back to the GitHub mirror\n" ++
  "#\n" ++
  "# Authentication is handled by the GITHUB_TOKEN secret provided by GitHub Actions.\n" ++
  "\n"

/-- `addComments` from the workflow package. -/
def addComments (yaml : String) : String := yamlHeader ++ yaml

/-- `generateWorkflowYAML`: serialize the document and prepend the header. -/
def generateWorkflowYAML (d : WorkflowTemplate) : String :=
  addComments (renderDoc (workflowValue d))

/-- `Generator.Generate` for a loaded configuration. -/
def generateFromConfig (cfg : Config) : String :=
  generateWorkflowYAML (templateOfConfig cfg)

/-- Lookup in a map-entry list (first match, as yaml mappings have unique
keys here). -/
def lookupY : List (String × Yaml) → String → Option Yaml
  | [], _ => none
  | (k', v) :: t, k => if k' = k then some v else lookupY t k

/-- The mapping entries of a `Yaml` node, when it is a mapping. -/
def asMap : Yaml → Option (List (String × Yaml))
  | .map es => some es
  | _ => none

/-- The key sequence the encoder emits for a mapping document. -/
def renderedTopKeys (v : Yaml) : List String :=
  match v with
  | .map es => (sortPairs es).map Prod.fst
  | _ => []

/-- The `schedule` trigger carried by the generated document. -/
def scheduleCronOf (d : WorkflowTemplate) : Option Yaml :=
  (lookupY (workflowEntries d) "on").bind fun onv =>
    (asMap onv).bind fun es => lookupY es "schedule"

/-- The `jobs.sync.steps` sequence of the generated document. -/
def stepsOf (d : WorkflowTemplate) : Option Yaml :=
  (lookupY (workflowEntries d) "jobs").bind fun j =>
    (asMap j).bind fun js =>
      (lookupY js "sync").bind fun sv =>
        (asMap sv).bind fun se => lookupY se "steps"

/-! ### Repository reference resolution (`pkg/git/ops.go` and the github
package) -/

/-- The parts of a parsed URL that the source consults. -/
structure GoURL where
  scheme : String
  host : String
  path : String
deriving Repr, DecidableEq

/-- Go `net/url`'s control-byte test (`stringContainsCTLByte`): a byte below
0x20 or equal to 0x7f.  Multi-byte runes have only bytes at or above 0x80,
so the character-level test agrees with Go's byte-level one. -/
def isCTL (c : Char) : Bool :=
  decide (c.toNat < 32) || decide (c.toNat = 127)

/-- Characters `net/url` permits unescaped in a host (`shouldEscape` with
`encodeHost` returns false): bytes at or above 0x80, ASCII alphanumerics,
the RFC 3986 unreserved marks, and the sub-delims (plus `:[]<>"`) that Go
allows in a reg-name. -/
def validHostChar (c : Char) : Bool :=
  decide (128 ≤ c.toNat) ||
  (decide (48 ≤ c.toNat) && decide (c.toNat ≤ 57)) ||
  (decide (65 ≤ c.toNat) && decide (c.toNat ≤ 90)) ||
  (decide (97 ≤ c.toNat) && decide (c.toNat ≤ 122)) ||
  memB c ['-', '_', '.', '~', '!', '$', '&', Char.ofNat 39, '(', ')', '*', '+',
    ',', ';', '=', ':', '[', ']', '<', '>', '"']

/-- The characters strictly after the last occurrence of `c` (the whole
list when `c` does not occur). -/
def afterLastChar (c : Char) (l : List Char) : List Char :=
  (l.reverse.takeWhile (fun x => x != c)).reverse

/-- Go `net/url`'s `validOptionalPort`: empty, or a colon followed by
decimal digits only. -/
def validOptionalPortL (colonPort : List Char) : Bool :=
  match colonPort with
  | [] => true
  | c :: rest => if c = ':' then rest.all Char.isDigit else false

/-- Go `net/url`'s `parseHost` checks on the authority (userinfo handling
aside, which the theorems below keep out of scope): a bracketed host needs
a closing `]` and a valid optional port after it; otherwise everything
after the last colon must be a decimal port; and every ASCII byte of the
host must be a character `shouldEscape(·, encodeHost)` accepts. -/
def hostCheck (h : List Char) : Except String Unit :=
  if h.head? = some '[' then
    if memB ']' h = false then .error "missing \x27]\x27 in host"
    else if validOptionalPortL (afterLastChar ']' h) = false then
      .error "invalid port after host"
    else if h.all validHostChar = false then .error "invalid character in host name"
    else .ok ()
  else if memB ':' h then
    if (afterLastChar ':' h).all Char.isDigit = false then
      .error "invalid port after host"
    else if h.all validHostChar = false then .error "invalid character in host name"
    else .ok ()
  else if h.all validHostChar = false then .error "invalid character in host name"
  else .ok ()

/-- Go `net/url`'s `getScheme` scanner: consumes `[a-zA-Z][a-zA-Z0-9+-.]*`
followed by `:`; a leading digit/`+`/`-`/`.` or any other character means
the URL has no scheme; a leading `:` is an error. -/
def findScheme (acc : List Char) : List Char → Except String (Option (List Char × List Char))
  | [] => .ok none
  | c :: cs =>
    if c.isAlpha then findScheme (acc ++ [c]) cs
    else if c.isDigit ∨ c = '+' ∨ c = '-' ∨ c = '.' then
      (if acc = [] then .ok none else findScheme (acc ++ [c]) cs)
    else if c = ':' then
      (if acc = [] then .error "missing protocol scheme" else .ok (some (acc, cs)))
    else .ok none

/-- Go `net/url.Parse`, restricted to the fields the source reads.  A URL
containing a control byte (below 0x20, or 0x7f) is rejected up front, as in
`net/url`.  A scheme-less URL whose first path segment contains a colon is
rejected (this is what every `git@host:...` string hits).  For
`scheme://host/path` URLs the host is the authority up to the next slash —
validated with `hostCheck`, the model of `parseHost` — and the path is the
remainder; an opaque `scheme:rest` URL has an empty path.  Userinfo
(`user@host`) splitting and percent-decoding are not modelled; the theorems
below keep `@` and `%` out of the authority and path through their
well-formedness hypotheses. -/
def goURLParse (s : String) : Except String GoURL :=
  if s.data.any isCTL then
    .error "net/url: invalid control character in URL"
  else
    match findScheme [] s.data with
    | .error e => .error e
    | .ok none =>
      if s.data.head? = some '/' then .ok ⟨"", "", s⟩
      else if memB ':' (breakAtChar '/' s.data).1 then
        .error "first path segment in URL cannot contain colon"
      else .ok ⟨"", "", s⟩
    | .ok (some (sch, rest)) =>
      let scheme := goToLower ⟨sch⟩
      match rest with
      | '/' :: '/' :: r =>
        match hostCheck (breakAtChar '/' r).1 with
        | .error e => .error e
        | .ok _ =>
          match (breakAtChar '/' r).2 with
          | none => .ok ⟨scheme, ⟨(breakAtChar '/' r).1⟩, ""⟩
          | some p => .ok ⟨scheme, ⟨(breakAtChar '/' r).1⟩, ⟨'/' :: p⟩⟩
      | _ => .ok ⟨scheme, "", ""⟩

/-- `parseGitHubURL` from `pkg/git/ops.go`: appends `.git`, parses with
`net/url`, then dispatches on the scheme. -/
def ops_parseGitHubURL (githubURL : String) : Except String (String × String) :=
  let cleanURL := ensureGitExtension githubURL
  match goURLParse cleanURL with
  | .error e => .error ("invalid URL: " ++ e)
  | .ok u =>
    if u.scheme = "http" ∨ u.scheme = "https" then
      match splitOnSlash (trimPrefixStr u.path "/") with
      | p0 :: p1 :: _ => .ok (p0, trimSuffixStr p1 ".git")
      | _ => .error ("invalid GitHub repository path: " ++ u.path)
    else if hasPrefixB githubURL "git@github.com:" then
      match splitOnSlash (trimPrefixStr githubURL "git@github.com:") with
      | p0 :: p1 :: _ => .ok (p0, trimSuffixStr p1 ".git")
      | _ => .error "invalid GitHub SSH URL format"
    else .error "unsupported GitHub URL format"

/-- `parseGitHubURL` from the github package (the installer's resolver): the
HTTP(S) branch parses the URL as given (no `.git` normalization), the SSH
branch works on the raw string. -/
def gh_parseGitHubURL (githubURL : String) : Except String (String × String) :=
  if hasPrefixB githubURL "http://" ∨ hasPrefixB githubURL "https://" then
    match goURLParse githubURL with
    | .error e => .error ("invalid URL: " ++ e)
    | .ok u =>
      match splitOnSlash (trimPrefixStr u.path "/") with
      | p0 :: p1 :: _ => .ok (p0, trimSuffixStr p1 ".git")
      | _ => .error ("invalid GitHub repository path: " ++ u.path)
  else if hasPrefixB githubURL "git@github.com:" then
    match splitOnSlash (trimPrefixStr githubURL "git@github.com:") with
    | p0 :: p1 :: _ => .ok (p0, trimSuffixStr p1 ".git")
    | _ => .error "invalid GitHub SSH URL format"
  else .error "unsupported GitHub URL format"

/-- Outcome of `validateRepoURL` from `pkg/git/ops.go`: either a HEAD probe
is issued against a URL, or the location is accepted or rejected without any
network access. -/
inductive RepoURLCheck where
  | probe : String → RepoURLCheck
  | accept : RepoURLCheck
  | invalid : String → RepoURLCheck
deriving Repr, DecidableEq

/-- `validateRepoURL` from `pkg/git/ops.go`. -/
def validateRepoURL (repoURL : String) : RepoURLCheck :=
  if hasPrefixB repoURL "http://" ∨ hasPrefixB repoURL "https://" then
    if containsSubB repoURL "github.com" then
      .probe (ensureGitExtension repoURL ++ "/info/refs?service=git-upload-pack")
    else
      .probe (ensureGitExtension repoURL)
  else if hasPrefixB repoURL "git@" ∨ hasPrefixB repoURL "ssh://" then
    if containsCharB repoURL ':' = false ∧ containsCharB repoURL '/' = false then
      .invalid "invalid SSH URL format"
    else .accept
  else .invalid "unsupported repository URL scheme"

/-! ### Workflow installation (the github package) -/

/-- The fixed install path used by `SetupWorkflow`. -/
def workflowPath : String := ".github/workflows/sync-mirror.yml"

/-- What the `GetContents` existence check returned: the error (if any), the
HTTP status of the response (when a response exists at all), and the content
version token (SHA) when file content came back. -/
structure ContentsFetch where
  errMsg : Option String
  status : Option Nat
  sha : Option String
deriving Repr, DecidableEq

/-- `SetupWorkflow`'s decision after the existence check: propagate a
failure, or issue the create/update write with a commit message and an
optional version token. -/
inductive SetupAction where
  | fail : SetupAction
  | write : String → Option String → SetupAction
deriving Repr, DecidableEq

/-- The create-or-update decision logic of `SetupWorkflow` (the code between
the `GetContents` call and the `CreateFile` call). -/
def setupWorkflowDecision (r : ContentsFetch) : SetupAction :=
  if r.errMsg = none ∧ r.status = some 200 ∧ r.sha ≠ none then
    .write "Update repository sync workflow" r.sha
  else if r.status ≠ none ∧ r.status ≠ some 404 then
    .fail
  else
    .write "Add repository sync workflow" none

/-! ### Basic lemmas about the string primitives -/

theorem strExt {a b : String} (h : a.data = b.data) : a = b := by
  cases a; cases b; exact congrArg String.mk h

theorem isPrefB_iff (a b : List Char) : isPrefB a b = true ↔ a <+: b := by
  induction a generalizing b with
  | nil => simp [isPrefB]
  | cons x xs ih =>
    cases b with
    | nil => simp [isPrefB]
    | cons y ys =>
      by_cases hxy : x = y
      · subst hxy
        simp [isPrefB, ih, List.cons_prefix_cons]
      · simp [isPrefB, hxy, List.cons_prefix_cons]

theorem hasPrefixB_iff (s pre : String) : hasPrefixB s pre = true ↔ pre.data <+: s.data := by
  simp [hasPrefixB, isPrefB_iff]

theorem hasSuffixB_iff (s suf : String) : hasSuffixB s suf = true ↔ suf.data <:+ s.data := by
  simp [hasSuffixB, isPrefB_iff, List.reverse_prefix]

theorem memB_iff (c : Char) (l : List Char) : memB c l = true ↔ c ∈ l := by
  induction l with
  | nil => simp [memB]
  | cons x xs ih =>
    by_cases hx : x = c
    · subst hx; simp [memB]
    · simp [memB, hx, ih, Ne.symm hx]

theorem memB_false_iff (c : Char) (l : List Char) : memB c l = false ↔ c ∉ l := by
  rw [← memB_iff]; cases memB c l <;> simp

theorem splitOnCharL_ne_nil (c : Char) (l : List Char) : splitOnCharL c l ≠ [] := by
  cases l with
  | nil => simp [splitOnCharL]
  | cons x xs =>
    by_cases hx : x = c
    · simp [splitOnCharL, hx]
    · simp only [splitOnCharL, hx, if_false]
      cases splitOnCharL c xs <;> simp

theorem splitOnCharL_of_not_mem {c : Char} {l : List Char} (h : memB c l = false) :
    splitOnCharL c l = [l] := by
  induction l with
  | nil => simp [splitOnCharL]
  | cons x xs ih =>
    simp only [memB] at h
    by_cases hx : x = c
    · simp [hx] at h
    · simp only [hx, if_false] at h
      simp [splitOnCharL, hx, ih h]

theorem splitOnCharL_append {c : Char} {a : List Char} (b : List Char)
    (ha : memB c a = false) :
    splitOnCharL c (a ++ c :: b) = a :: splitOnCharL c b := by
  induction a with
  | nil => simp [splitOnCharL]
  | cons x xs ih =>
    simp only [memB] at ha
    by_cases hx : x = c
    · simp [hx] at ha
    · simp only [hx, if_false] at ha
      simp only [List.cons_append, splitOnCharL, hx, if_false]
      have ih2 : splitOnCharL c (List.append xs (c :: b)) = xs :: splitOnCharL c b := ih ha
      rw [ih2]

theorem breakAtChar_of_not_mem {c : Char} {l : List Char} (h : memB c l = false) :
    breakAtChar c l = (l, none) := by
  induction l with
  | nil => simp [breakAtChar]
  | cons x xs ih =>
    simp only [memB] at h
    by_cases hx : x = c
    · simp [hx] at h
    · simp only [hx, if_false] at h
      simp [breakAtChar, hx, ih h]

theorem breakAtChar_append {c : Char} {a : List Char} (b : List Char)
    (ha : memB c a = false) :
    breakAtChar c (a ++ c :: b) = (a, some b) := by
  induction a with
  | nil => simp [breakAtChar]
  | cons x xs ih =>
    simp only [memB] at ha
    by_cases hx : x = c
    · simp [hx] at ha
    · simp only [hx, if_false] at ha
      simp [breakAtChar, hx, ih ha]

/-! ### Disequality and cancellation helpers for appended strings -/

theorem take_len_append (a b : List Char) : (a ++ b).take a.length = a := by
  rw [List.take_append_of_le_length (le_refl a.length), List.take_length]

theorem str_append_cancel_left {a b c : String} (h : a ++ b = a ++ c) : b = c := by
  have hd := congrArg String.data h
  simp only [String.data_append] at hd
  exact strExt (List.append_cancel_left hd)

/-- Two appended strings differ when their leading literals differ within the
first `n` characters. -/
theorem append_ne_append (a c L R : String) (n : Nat)
    (ha : n ≤ a.data.length) (hL : n ≤ L.data.length)
    (hne : a.data.take n ≠ L.data.take n) : a ++ c ≠ L ++ R := by
  intro h
  apply hne
  have hd := congrArg String.data h
  simp only [String.data_append] at hd
  calc a.data.take n = (a.data ++ c.data).take n :=
        (List.take_append_of_le_length ha).symm
    _ = (L.data ++ R.data).take n := by rw [hd]
    _ = L.data.take n := List.take_append_of_le_length hL

/-- An appended string differs from a literal when the leading literal
differs from it within the first `n` characters. -/
theorem append_ne_lit (a c L : String) (n : Nat)
    (ha : n ≤ a.data.length) (_hL : n ≤ L.data.length)
    (hne : a.data.take n ≠ L.data.take n) : a ++ c ≠ L := by
  intro h
  apply hne
  have hd := congrArg String.data h
  simp only [String.data_append] at hd
  calc a.data.take n = (a.data ++ c.data).take n :=
        (List.take_append_of_le_length ha).symm
    _ = L.data.take n := by rw [hd]

theorem lit_ne_append (L a c : String) (n : Nat)
    (ha : n ≤ a.data.length) (hL : n ≤ L.data.length)
    (hne : a.data.take n ≠ L.data.take n) : L ≠ a ++ c :=
  fun h => append_ne_lit a c L n ha hL hne h.symm

/-! ### Suffix-trimming lemmas -/

theorem hasSuffixB_append_self (s suf : String) : hasSuffixB (s ++ suf) suf = true := by
  rw [hasSuffixB_iff, String.data_append]
  exact List.suffix_append s.data suf.data

theorem trimSuffix_append (s suf : String) : trimSuffixStr (s ++ suf) suf = s := by
  unfold trimSuffixStr
  rw [hasSuffixB_append_self]
  simp only [if_true, String.data_append, List.length_append]
  apply strExt
  simp only [Nat.add_sub_cancel]
  exact take_len_append s.data suf.data

theorem trimSuffix_of_not {s suf : String} (h : hasSuffixB s suf = false) :
    trimSuffixStr s suf = s := by
  simp [trimSuffixStr, h]

/-- If one `.git`-strip still leaves a `.git` suffix, the original ended in
`.git.git`. -/
theorem git_suffix_of_trim_git {p : String}
    (h : hasSuffixB (trimSuffixStr p ".git") ".git" = true) :
    hasSuffixB p ".git.git" = true := by
  by_cases hp : hasSuffixB p ".git" = true
  · rw [hasSuffixB_iff] at hp
    obtain ⟨q, hq⟩ := hp
    have hqe : p = (⟨q⟩ : String) ++ ".git" := by
      apply strExt; rw [String.data_append, ← hq]
    rw [hqe, trimSuffix_append] at h
    rw [hasSuffixB_iff] at h ⊢
    obtain ⟨r, hr⟩ := h
    rw [hqe]
    refine ⟨r, ?_⟩
    show r ++ (String.data ".git.git") = _
    rw [String.data_append]
    show r ++ (String.data ".git" ++ String.data ".git") = _
    rw [← List.append_assoc, hr]
  · rw [Bool.not_eq_true] at hp
    rw [trimSuffix_of_not hp] at h
    rw [h] at hp
    cases hp

/-- A string with one literal prefix cannot have another literal prefix
whose first character differs. -/
theorem hasPrefixB_false_of_first_ne {s : String} {a b : Char} {pa pb : List Char}
    {p q : String} (hpa : p.data = a :: pa) (hqb : q.data = b :: pb) (hab : a ≠ b)
    (hp : hasPrefixB s p = true) : hasPrefixB s q = false := by
  rw [hasPrefixB_iff] at hp
  obtain ⟨t, ht⟩ := hp
  rw [Bool.eq_false_iff]
  intro hq
  rw [hasPrefixB_iff] at hq
  obtain ⟨u, hu⟩ := hq
  rw [hpa] at ht
  rw [hqb] at hu
  have hcomb : (a :: pa) ++ t = (b :: pb) ++ u := ht.trans hu.symm
  simp only [List.cons_append, List.cons.injEq] at hcomb
  exact hab hcomb.1

/-! ### Character-prefix comparison helpers for appended strings -/

theorem ne_of_take_ne {s t : String} (n : Nat) (h : s.data.take n ≠ t.data.take n) :
    s ≠ t := fun he => h (by rw [he])

theorem le_len_append (a b : String) (n : Nat) (h : n ≤ a.data.length) :
    n ≤ (a ++ b).data.length := by
  rw [String.data_append, List.length_append]
  omega

theorem take_app1 (a b : String) (n : Nat) (h : n ≤ a.data.length) :
    (a ++ b).data.take n = a.data.take n := by
  rw [String.data_append]
  exact List.take_append_of_le_length h

theorem take_app2 (a v w : String) (n : Nat) (h : n ≤ a.data.length) :
    ((a ++ v) ++ w).data.take n = a.data.take n := by
  rw [take_app1 _ _ _ (le_len_append a v n h), take_app1 _ _ _ h]

theorem take_app3 (a v w x : String) (n : Nat) (h : n ≤ a.data.length) :
    (((a ++ v) ++ w) ++ x).data.take n = a.data.take n := by
  rw [take_app1 _ _ _ (le_len_append _ _ _ (le_len_append a v n h)),
    take_app2 _ _ _ _ h]

theorem take_app4 (a v w x y : String) (n : Nat) (h : n ≤ a.data.length) :
    ((((a ++ v) ++ w) ++ x) ++ y).data.take n = a.data.take n := by
  rw [take_app1 _ _ _ (le_len_append _ _ _ (le_len_append _ _ _ (le_len_append a v n h))),
    take_app3 _ _ _ _ _ h]

/-! ### C2 — structure of the synthesized sync script -/

/-- In force mode the conflict-resolution command of the merge branch never
appears as a script line (assuming the mirror branch name is not itself the
adversarial string `--theirs .`). -/
theorem theirs_notin (d : WorkflowTemplate) (hf : d.ForceSync = true)
    (hmb : d.MirrorBranch ≠ "--theirs .") :
    "  git checkout --theirs ." ∉ syncScriptLines d := by
  intro hmem
  simp [syncScriptLines, hf, syncScriptCommonPre, forceSyncLines,
    syncScriptCommonPost] at hmem
  rcases hmem with h | h | h | h | h | h | h | h | h | h
  · exact absurd h (by
      apply ne_of_take_ne 1
      rw [take_app1 "git remote add primary " d.PrimaryRepo 1 (by decide)]
      decide)
  · exact absurd h (by
      apply ne_of_take_ne 1
      rw [take_app4 "if git ls-remote --heads primary " d.PrimaryBranch " | grep -q "
        d.PrimaryBranch "; then" 1 (by decide)]
      decide)
  · exact absurd h (by
      apply ne_of_take_ne 3
      rw [take_app2 "  echo \"Primary branch " d.PrimaryBranch
        " found in primary repository\"" 3 (by decide)]
      decide)
  · exact absurd h (by
      apply ne_of_take_ne 3
      rw [take_app2 "  echo \"Error: Primary branch " d.PrimaryBranch
        " not found in primary repository\"" 3 (by decide)]
      decide)
  · exact absurd h (by
      apply ne_of_take_ne 1
      rw [take_app2 "if git rev-parse --verify --quiet " d.MirrorBranch "; then" 1
        (by decide)]
      decide)
  · have h2 : ("  git checkout " : String) ++ "--theirs ." =
        "  git checkout " ++ d.MirrorBranch :=
      (by decide : ("  git checkout " : String) ++ "--theirs ." =
        "  git checkout --theirs .").trans h
    exact hmb (str_append_cancel_left h2).symm
  · exact absurd h (by
      apply ne_of_take_ne 17
      rw [take_app1 "  git checkout -b " d.MirrorBranch 17 (by decide)]
      decide)
  · exact absurd h (by
      apply ne_of_take_ne 1
      rw [take_app4 "echo \"Performing force sync from primary/" d.PrimaryBranch
        " to " d.MirrorBranch "\"" 1 (by decide)]
      decide)
  · exact absurd h (by
      apply ne_of_take_ne 1
      rw [take_app1 "git reset --hard primary/" d.PrimaryBranch 1 (by decide)]
      decide)
  · exact absurd h (by
      apply ne_of_take_ne 1
      rw [take_app1 "git push origin " d.MirrorBranch 1 (by decide)]
      decide)

/-- In force mode no merge-attempt line appears in the script, whatever
branch name it would mention. -/
theorem mergeline_notin (d : WorkflowTemplate) (hf : d.ForceSync = true) (b : String) :
    ("if ! git merge primary/" ++ b ++ " --no-edit; then") ∉ syncScriptLines d := by
  intro hmem
  simp [syncScriptLines, hf, syncScriptCommonPre, forceSyncLines,
    syncScriptCommonPost] at hmem
  rcases hmem with
    h|h|h|h|h|h|h|h|h|h|h|h|h|h|h|h|h|h|h|h|h|h|h|h|h|h|h|h
  all_goals refine absurd h ?_
  all_goals apply ne_of_take_ne 4
  all_goals rw [take_app2 "if ! git merge primary/" b " --no-edit; then" 4 (by decide)]
  all_goals first
    | decide
    | (rw [take_app1 "git remote add primary " d.PrimaryRepo 4 (by decide)]; decide)
    | (rw [take_app4 "if git ls-remote --heads primary " d.PrimaryBranch " | grep -q "
        d.PrimaryBranch "; then" 4 (by decide)]; decide)
    | (rw [take_app2 "  echo \"Primary branch " d.PrimaryBranch
        " found in primary repository\"" 4 (by decide)]; decide)
    | (rw [take_app2 "  echo \"Error: Primary branch " d.PrimaryBranch
        " not found in primary repository\"" 4 (by decide)]; decide)
    | (rw [take_app2 "if git rev-parse --verify --quiet " d.MirrorBranch "; then" 4
        (by decide)]; decide)
    | (rw [take_app1 "  git checkout " d.MirrorBranch 4 (by decide)]; decide)
    | (rw [take_app1 "  git checkout -b " d.MirrorBranch 4 (by decide)]; decide)
    | (rw [take_app4 "echo \"Performing force sync from primary/" d.PrimaryBranch
        " to " d.MirrorBranch "\"" 4 (by decide)]; decide)
    | (rw [take_app1 "git reset --hard primary/" d.PrimaryBranch 4 (by decide)]; decide)
    | (rw [take_app1 "git push origin " d.MirrorBranch 4 (by decide)]; decide)

/-- In merge mode no hard-reset line appears in the script, whatever branch
name it would mention. -/
theorem resetline_notin (d : WorkflowTemplate) (hf : d.ForceSync = false) (b : String) :
    ("git reset --hard primary/" ++ b) ∉ syncScriptLines d := by
  intro hmem
  simp [syncScriptLines, hf, syncScriptCommonPre, mergeSyncLines,
    syncScriptCommonPost] at hmem
  rcases hmem with
    h|h|h|h|h|h|h|h|h|h|h|h|h|h|h|h|h|h|h|h|h|h|h|h|h|h|h|h|h|h|h|h|h|h
  all_goals refine absurd h ?_
  all_goals apply ne_of_take_ne 7
  all_goals rw [take_app1 "git reset --hard primary/" b 7 (by decide)]
  all_goals first
    | decide
    | (rw [take_app1 "git remote add primary " d.PrimaryRepo 7 (by decide)]; decide)
    | (rw [take_app4 "if git ls-remote --heads primary " d.PrimaryBranch " | grep -q "
        d.PrimaryBranch "; then" 7 (by decide)]; decide)
    | (rw [take_app2 "  echo \"Primary branch " d.PrimaryBranch
        " found in primary repository\"" 7 (by decide)]; decide)
    | (rw [take_app2 "  echo \"Error: Primary branch " d.PrimaryBranch
        " not found in primary repository\"" 7 (by decide)]; decide)
    | (rw [take_app2 "if git rev-parse --verify --quiet " d.MirrorBranch "; then" 7
        (by decide)]; decide)
    | (rw [take_app1 "  git checkout " d.MirrorBranch 7 (by decide)]; decide)
    | (rw [take_app1 "  git checkout -b " d.MirrorBranch 7 (by decide)]; decide)
    | (rw [take_app4 "echo \"Attempting to merge changes from primary/" d.PrimaryBranch
        " to " d.MirrorBranch "\"" 7 (by decide)]; decide)
    | (rw [take_app2 "if ! git merge primary/" d.PrimaryBranch " --no-edit; then" 7
        (by decide)]; decide)
    | (rw [take_app1 "git push origin " d.MirrorBranch 7 (by decide)]; decide)

/-- C2: the synthesized sync script (the `"\n"`-join of `syncScriptLines`)
contains, in force mode, the hard-reset command for
`primary/{primaryBranch}` and no line of the merge-conflict branch (neither
the merge attempt for any branch nor the conflict-resolution checkout); in
merge mode it contains the merge attempt and the prefer-primary conflict
commands and no hard-reset line for any branch.  The only assumption is
that the mirror branch name is not the adversarial string `"--theirs ."`,
which no git branch name can be. -/
theorem c2_sync_script (d : WorkflowTemplate) (hmb : d.MirrorBranch ≠ "--theirs .") :
    generateSyncScript d = String.intercalate "\n" (syncScriptLines d) ∧
    (d.ForceSync = true →
      ("git reset --hard primary/" ++ d.PrimaryBranch) ∈ syncScriptLines d ∧
      "  git checkout --theirs ." ∉ syncScriptLines d ∧
      ∀ b, ("if ! git merge primary/" ++ b ++ " --no-edit; then") ∉ syncScriptLines d) ∧
    (d.ForceSync = false →
      ("if ! git merge primary/" ++ d.PrimaryBranch ++ " --no-edit; then") ∈
        syncScriptLines d ∧
      "  git checkout --theirs ." ∈ syncScriptLines d ∧
      ("  git commit -m \"Merge primary repository, preferring primary changes in conflicts\"") ∈
        syncScriptLines d ∧
      ∀ b, ("git reset --hard primary/" ++ b) ∉ syncScriptLines d) := by
  refine ⟨rfl, ?_, ?_⟩
  · intro hf
    refine ⟨?_, theirs_notin d hf hmb, fun b => mergeline_notin d hf b⟩
    simp [syncScriptLines, hf, forceSyncLines]
  · intro hf
    refine ⟨?_, ?_, ?_, fun b => resetline_notin d hf b⟩ <;>
      simp [syncScriptLines, hf, mergeSyncLines]

/-- C2 witness: with a concrete force-mode configuration the reset line is
present and the conflict-resolution line absent. -/
theorem c2_sync_script_witness :
    ("git reset --hard primary/" ++ "main") ∈
      syncScriptLines ⟨"https://example.org/repo.git", "https://github.com/u/r",
        "main", "main", "0 * * * *", true⟩ ∧
    "  git checkout --theirs ." ∉
      syncScriptLines ⟨"https://example.org/repo.git", "https://github.com/u/r",
        "main", "main", "0 * * * *", true⟩ :=
  ⟨(((c2_sync_script ⟨"https://example.org/repo.git", "https://github.com/u/r",
      "main", "main", "0 * * * *", true⟩ (by decide)).2.1) rfl).1,
   (((c2_sync_script ⟨"https://example.org/repo.git", "https://github.com/u/r",
      "main", "main", "0 * * * *", true⟩ (by decide)).2.1) rfl).2.1⟩

/-! ### Order lemmas for the encoder's key comparison -/

theorem charListLE_total : ∀ a b : List Char, charListLE a b = true ∨ charListLE b a = true
  | [], _ => Or.inl rfl
  | _ :: _, [] => Or.inr rfl
  | a :: as, b :: bs => by
    rcases lt_trichotomy a b with h | h | h
    · left; simp [charListLE, h]
    · subst h
      rcases charListLE_total as bs with ih | ih
      · left; simp [charListLE, lt_irrefl, ih]
      · right; simp [charListLE, lt_irrefl, ih]
    · right; simp [charListLE, h]

theorem charListLE_antisymm : ∀ a b : List Char,
    charListLE a b = true → charListLE b a = true → a = b
  | [], [], _, _ => rfl
  | [], _ :: _, _, h2 => by simp [charListLE] at h2
  | _ :: _, [], h1, _ => by simp [charListLE] at h1
  | a :: as, b :: bs, h1, h2 => by
    rcases lt_trichotomy a b with h | h | h
    · simp [charListLE, h, lt_asymm h] at h2
    · subst h
      simp only [charListLE, lt_irrefl, if_false] at h1 h2
      rw [charListLE_antisymm as bs h1 h2]
    · simp [charListLE, h, lt_asymm h] at h1

theorem charListLE_trans : ∀ a b c : List Char,
    charListLE a b = true → charListLE b c = true → charListLE a c = true
  | [], _, _, _, _ => rfl
  | _ :: _, [], _, h1, _ => by simp [charListLE] at h1
  | _ :: _, _ :: _, [], _, h2 => by simp [charListLE] at h2
  | a :: as, b :: bs, c :: cs, h1, h2 => by
    rcases lt_trichotomy a b with hab | hab | hab
    · rcases lt_trichotomy b c with hbc | hbc | hbc
      · simp [charListLE, lt_trans hab hbc]
      · subst hbc; simp [charListLE, hab]
      · simp [charListLE, lt_asymm hbc, hbc] at h2
    · subst hab
      rcases lt_trichotomy a c with hac | hac | hac
      · simp [charListLE, hac]
      · subst hac
        simp only [charListLE, lt_irrefl, if_false] at h1 h2 ⊢
        exact charListLE_trans as bs cs h1 h2
      · simp [charListLE, lt_asymm hac, hac] at h2
    · simp [charListLE, lt_asymm hab, hab] at h1

theorem keyLE_total (a b : String) : keyLE a b = true ∨ keyLE b a = true :=
  charListLE_total a.data b.data

theorem keyLE_antisymm {a b : String} (h1 : keyLE a b = true) (h2 : keyLE b a = true) :
    a = b :=
  strExt (charListLE_antisymm a.data b.data h1 h2)

theorem keyLE_trans {a b c : String} (h1 : keyLE a b = true) (h2 : keyLE b c = true) :
    keyLE a c = true :=
  charListLE_trans a.data b.data c.data h1 h2

/-! ### The encoder's key sort: permutation invariance -/

theorem insertPair_perm {α : Type} (p : String × α) :
    ∀ l : List (String × α), (insertPair p l).Perm (p :: l)
  | [] => by simp [insertPair]
  | q :: t => by
    by_cases h : keyLE p.1 q.1 = true
    · simp [insertPair, h]
    · simp only [insertPair, h, if_false]
      exact ((insertPair_perm p t).cons q).trans (List.Perm.swap p q t)

theorem sortPairs_perm {α : Type} : ∀ l : List (String × α), (sortPairs l).Perm l
  | [] => .refl _
  | p :: t => (insertPair_perm p (sortPairs t)).trans ((sortPairs_perm t).cons p)

theorem insertPair_sorted {α : Type} (p : String × α) :
    ∀ {l : List (String × α)},
      l.Pairwise (fun x y => keyLE x.1 y.1 = true) →
      (insertPair p l).Pairwise (fun x y => keyLE x.1 y.1 = true)
  | [], _ => by simp [insertPair]
  | q :: t, hl => by
    rw [List.pairwise_cons] at hl
    obtain ⟨hq, ht⟩ := hl
    by_cases h : keyLE p.1 q.1 = true
    · simp only [insertPair, h, if_true]
      refine List.Pairwise.cons ?_ (List.Pairwise.cons hq ht)
      intro x hx
      rcases List.mem_cons.mp hx with rfl | hx
      · exact h
      · exact keyLE_trans h (hq x hx)
    · have h' : keyLE q.1 p.1 = true := (keyLE_total p.1 q.1).resolve_left h
      simp only [insertPair, h, if_false]
      refine List.Pairwise.cons ?_ (insertPair_sorted p ht)
      intro x hx
      rcases List.mem_cons.mp ((insertPair_perm p t).mem_iff.mp hx) with rfl | hx'
      · exact h'
      · exact hq x hx'

theorem sortPairs_sorted {α : Type} :
    ∀ l : List (String × α), (sortPairs l).Pairwise (fun x y => keyLE x.1 y.1 = true)
  | [] => .nil
  | p :: t => insertPair_sorted p (sortPairs_sorted t)

/-- Two key-sorted entry lists that are permutations of each other, with
duplicate-free keys, are equal. -/
theorem sorted_nodup_eq {α : Type} : ∀ l₁ l₂ : List (String × α), l₁.Perm l₂ →
    l₁.Pairwise (fun x y => keyLE x.1 y.1 = true) →
    l₂.Pairwise (fun x y => keyLE x.1 y.1 = true) →
    (l₁.map Prod.fst).Nodup → l₁ = l₂
  | [], l₂, hp, _, _, _ => hp.nil_eq
  | p :: t₁, l₂, hp, h₁, h₂, hnd => by
    cases l₂ with
    | nil => exact absurd hp.eq_nil (by simp)
    | cons q t₂ =>
      rw [List.map_cons, List.nodup_cons] at hnd
      have hpq : p = q := by
        rcases List.mem_cons.mp (hp.mem_iff.mp (List.mem_cons_self p t₁)) with h | h
        · exact h
        · rcases List.mem_cons.mp (hp.symm.mem_iff.mp (List.mem_cons_self q t₂)) with h' | h'
          · exact h'.symm
          · have hqp : keyLE q.1 p.1 = true := (List.pairwise_cons.mp h₂).1 p h
            have hpq' : keyLE p.1 q.1 = true := (List.pairwise_cons.mp h₁).1 q h'
            have hkey : p.1 = q.1 := keyLE_antisymm hpq' hqp
            exfalso
            exact hnd.1 (by rw [hkey]; exact List.mem_map_of_mem Prod.fst h')
      subst hpq
      rw [sorted_nodup_eq t₁ t₂ hp.cons_inv (List.pairwise_cons.mp h₁).2
        (List.pairwise_cons.mp h₂).2 hnd.2]

theorem sortPairs_eq_of_perm {α : Type} {l₁ l₂ : List (String × α)} (h : l₁.Perm l₂)
    (hnd : (l₂.map Prod.fst).Nodup) : sortPairs l₁ = sortPairs l₂ :=
  sorted_nodup_eq _ _ ((sortPairs_perm l₁).trans (h.trans (sortPairs_perm l₂).symm))
    (sortPairs_sorted l₁) (sortPairs_sorted l₂)
    ((((sortPairs_perm l₁).map Prod.fst).trans (h.map Prod.fst)).nodup_iff.mpr hnd)

/-- The rendering of a non-empty mapping depends only on its sorted entry
list. -/
theorem renderYaml_map_congr (f i : Nat) {l₁ l₂ : List (String × Yaml)}
    (h₁ : l₁ ≠ []) (h₂ : l₂ ≠ []) (hs : sortPairs l₁ = sortPairs l₂) :
    renderYaml f i (.map l₁) = renderYaml f i (.map l₂) := by
  cases f with
  | zero => rfl
  | succ g =>
    cases l₁ with
    | nil => exact absurd rfl h₁
    | cons a t =>
      cases l₂ with
      | nil => exact absurd rfl h₂
      | cons b u =>
        simp only [renderYaml]
        rw [hs]

theorem hasPrefixB_left (a b : String) : hasPrefixB (a ++ b) a = true := by
  rw [hasPrefixB_iff, String.data_append]
  exact List.prefix_append _ _

/-! ### C1 — interval validation and the cron schedule -/

/-- C1 counterexample: the mixed-case interval `"Daily"` has lowercase form
`"daily"`, so `Load` accepts it, but the stored interval is the raw string
and `getCronSchedule` matches exact lowercase names only, so the generated
schedule trigger carries the hourly cron `0 * * * *` instead of the daily
cron `0 0 * * *` the claim requires. -/
theorem c1_counterexample :
    goToLower "Daily" = "daily" ∧
    loadConfig "" "tok" "https://primary.example/repo.git" "https://github.com/u/m"
        "main" "main" "Daily" true "" false false =
      .ok { GithubToken := "tok", PrimaryRepo := "https://primary.example/repo.git",
            MirrorRepo := "https://github.com/u/m", PrimaryBranch := "main",
            MirrorBranch := "main", SyncInterval := "Daily", ForceSync := true,
            OutputFile := "", SetupWorkflow := false, Verbose := false } ∧
    scheduleCronOf (templateOfConfig
      { GithubToken := "tok", PrimaryRepo := "https://primary.example/repo.git",
        MirrorRepo := "https://github.com/u/m", PrimaryBranch := "main",
        MirrorBranch := "main", SyncInterval := "Daily", ForceSync := true,
        OutputFile := "", SetupWorkflow := false, Verbose := false }) =
      some (.seq [.map [("cron", .str "0 * * * *")]]) ∧
    ("0 * * * *" : String) ≠ "0 0 * * *" := by
  refine ⟨rfl, rfl, rfl, by decide⟩

/-- C1 (amended): an interval that is exactly `hourly`/`daily`/`weekly`
loads and yields the corresponding cron expression; an interval whose
lowercase form is one of the three but which is not already lowercase also
loads, but the schedule trigger falls back to the hourly cron; any other
interval makes `Load` fail with the invalid-interval error before the cron
mapping is consulted. -/
theorem c1_interval_cron (gh ghub p m pb mb iv out : String) (force setup vb : Bool)
    (hp : p ≠ "") (hm : m ≠ "")
    (htok : ¬((if gh = "" then ghub else gh) = "" ∧ setup)) :
    ((goToLower iv = "hourly" ∨ goToLower iv = "daily" ∨ goToLower iv = "weekly") →
      loadConfig gh ghub p m pb mb iv force out setup vb =
        .ok { GithubToken := if gh = "" then ghub else gh, PrimaryRepo := p,
              MirrorRepo := m, PrimaryBranch := pb, MirrorBranch := mb,
              SyncInterval := iv, ForceSync := force, OutputFile := out,
              SetupWorkflow := setup, Verbose := vb } ∧
      scheduleCronOf (templateOfConfig
        { GithubToken := if gh = "" then ghub else gh, PrimaryRepo := p,
          MirrorRepo := m, PrimaryBranch := pb, MirrorBranch := mb,
          SyncInterval := iv, ForceSync := force, OutputFile := out,
          SetupWorkflow := setup, Verbose := vb }) =
        some (.seq [.map [("cron", .str (getCronSchedule iv))]]) ∧
      (iv = "hourly" → getCronSchedule iv = "0 * * * *") ∧
      (iv = "daily" → getCronSchedule iv = "0 0 * * *") ∧
      (iv = "weekly" → getCronSchedule iv = "0 0 * * 0") ∧
      (iv ≠ "hourly" → iv ≠ "daily" → iv ≠ "weekly" →
        getCronSchedule iv = "0 * * * *")) ∧
    (¬(goToLower iv = "hourly" ∨ goToLower iv = "daily" ∨ goToLower iv = "weekly") →
      loadConfig gh ghub p m pb mb iv force out setup vb =
        .error ("invalid sync interval: " ++ iv ++ " (must be hourly, daily, or weekly)")) := by
  constructor
  · intro hiv
    refine ⟨?_, rfl, ?_, ?_, ?_, ?_⟩
    · unfold loadConfig
      rw [if_neg htok, if_neg hp, if_neg hm, if_pos hiv]
    · intro h; rw [h]; rfl
    · intro h; rw [h]; rfl
    · intro h; rw [h]; rfl
    · intro h1 h2 h3; simp [getCronSchedule, h1, h2, h3]
  · intro hiv
    unfold loadConfig
    rw [if_neg htok, if_neg hp, if_neg hm, if_neg hiv]

/-- C1 witness: a concrete run of the amended theorem at `weekly`. -/
theorem c1_interval_cron_witness :
    loadConfig "" "tok" "p" "m" "main" "main" "weekly" true "" false false =
      .ok { GithubToken := "tok", PrimaryRepo := "p", MirrorRepo := "m",
            PrimaryBranch := "main", MirrorBranch := "main", SyncInterval := "weekly",
            ForceSync := true, OutputFile := "", SetupWorkflow := false,
            Verbose := false } ∧
    getCronSchedule "weekly" = "0 0 * * 0" := by
  have h := (c1_interval_cron "" "tok" "p" "m" "main" "main" "weekly" "" true false false
    (by decide) (by decide) (by decide)).1 (by decide)
  exact ⟨h.1, h.2.2.2.2.1 rfl⟩

/-! ### C10 — token precedence between GH_TOKEN and GITHUB_TOKEN -/

/-- C10: when `GH_TOKEN` is non-empty it is the token `Load` stores, and
`GITHUB_TOKEN` is consulted only when `GH_TOKEN` is empty. -/
theorem c10_token_precedence (gh ghub p m pb mb iv out : String)
    (force setup vb : Bool) :
    (gh ≠ "" → ∀ cfg, loadConfig gh ghub p m pb mb iv force out setup vb = .ok cfg →
      cfg.GithubToken = gh) ∧
    (gh = "" → ∀ cfg, loadConfig gh ghub p m pb mb iv force out setup vb = .ok cfg →
      cfg.GithubToken = ghub) := by
  constructor
  · intro hgh cfg hok
    simp only [loadConfig, if_neg hgh] at hok
    split at hok
    · exact absurd hok (by simp)
    · split at hok
      · exact absurd hok (by simp)
      · split at hok
        · exact absurd hok (by simp)
        · split at hok
          · injection hok with h
            rw [← h]
          · exact absurd hok (by simp)
  · intro hgh cfg hok
    simp only [loadConfig, if_pos hgh] at hok
    split at hok
    · exact absurd hok (by simp)
    · split at hok
      · exact absurd hok (by simp)
      · split at hok
        · exact absurd hok (by simp)
        · split at hok
          · injection hok with h
            rw [← h]
          · exact absurd hok (by simp)

/-- C10 witness: both token variables set; the stored token is `GH_TOKEN`. -/
theorem c10_token_precedence_witness :
    ({ GithubToken := "G", PrimaryRepo := "p", MirrorRepo := "m", PrimaryBranch := "b",
       MirrorBranch := "b", SyncInterval := "hourly", ForceSync := true,
       OutputFile := "", SetupWorkflow := false, Verbose := false } : Config).GithubToken
      = "G" :=
  (c10_token_precedence "G" "H" "p" "m" "b" "b" "hourly" "" true false false).1
    (by decide) _ rfl

/-! ### C4 — SSH-form validation in validateRepoURL -/

/-- C4 counterexample: `git@github.com:userrepo` contains a `:` but no `/`;
the claim says it must be rejected, but `validateRepoURL` accepts it
(the source rejects only when both characters are absent). -/
theorem c4_counterexample :
    validateRepoURL "git@github.com:userrepo" = .accept ∧
    containsCharB "git@github.com:userrepo" '/' = false := ⟨rfl, rfl⟩

/-- C4 (amended): for SSH-form locations (`git@` or `ssh://` prefix) no
network probe is issued, and the location is accepted exactly when it
contains a `:` or a `/`; it is rejected only when it lacks both. -/
theorem c4_ssh_validation (s : String)
    (h : hasPrefixB s "git@" = true ∨ hasPrefixB s "ssh://" = true) :
    (∀ u, validateRepoURL s ≠ .probe u) ∧
    (validateRepoURL s = .accept ↔
      (containsCharB s ':' = true ∨ containsCharB s '/' = true)) := by
  have hhttp : hasPrefixB s "http://" = false := by
    rcases h with h | h
    · exact hasPrefixB_false_of_first_ne (p := "git@") rfl rfl (by decide) h
    · exact hasPrefixB_false_of_first_ne (p := "ssh://") rfl rfl (by decide) h
  have hhttps : hasPrefixB s "https://" = false := by
    rcases h with h | h
    · exact hasPrefixB_false_of_first_ne (p := "git@") rfl rfl (by decide) h
    · exact hasPrefixB_false_of_first_ne (p := "ssh://") rfl rfl (by decide) h
  have hno : ¬(hasPrefixB s "http://" = true ∨ hasPrefixB s "https://" = true) := by
    simp [hhttp, hhttps]
  have hform : validateRepoURL s =
      (if containsCharB s ':' = false ∧ containsCharB s '/' = false then
        .invalid "invalid SSH URL format" else .accept) := by
    unfold validateRepoURL
    rw [if_neg hno, if_pos h]
  constructor
  · intro u
    rw [hform]
    split <;> simp
  · rw [hform]
    by_cases hc : containsCharB s ':' = true <;>
      by_cases hd : containsCharB s '/' = true <;>
      simp [hc, hd]

/-- C4 witness: a well-formed SSH location is accepted without probing. -/
theorem c4_ssh_validation_witness :
    (∀ u, validateRepoURL "git@github.com:user/repo" ≠ .probe u) ∧
    (validateRepoURL "git@github.com:user/repo" = .accept ↔
      (containsCharB "git@github.com:user/repo" ':' = true ∨
        containsCharB "git@github.com:user/repo" '/' = true)) :=
  c4_ssh_validation "git@github.com:user/repo" (Or.inl rfl)

/-! ### C7 — the create-or-update decision of SetupWorkflow -/

/-- C7 counterexample: a failed existence check that carries no HTTP
response at all (a transport error) does not propagate; `SetupWorkflow`
proceeds to a create write with no version token, although the claim says
every non-not-found failure propagates before any write. -/
theorem c7_counterexample :
    setupWorkflowDecision ⟨some "connection reset", none, none⟩ =
      .write "Add repository sync workflow" none ∧
    setupWorkflowDecision ⟨some "connection reset", none, none⟩ ≠ .fail := by
  constructor
  · rfl
  · intro h
    cases h

/-- C7 (amended): the decision reads the fixed path
`.github/workflows/sync-mirror.yml`; existing content (no error, status 200,
content returned) yields an update write carrying the captured version
token; a not-found response yields a create write with no token; a failure
carrying any response whose status is neither 200-with-content nor 404
propagates; but a failure with no response at all proceeds to a create
write. -/
theorem c7_setup_decision (r : ContentsFetch) :
    workflowPath = ".github/workflows/sync-mirror.yml" ∧
    (r.errMsg = none ∧ r.status = some 200 ∧ r.sha ≠ none →
      setupWorkflowDecision r = .write "Update repository sync workflow" r.sha) ∧
    (r.status = some 404 →
      setupWorkflowDecision r = .write "Add repository sync workflow" none) ∧
    (¬(r.errMsg = none ∧ r.status = some 200 ∧ r.sha ≠ none) →
      r.status ≠ none → r.status ≠ some 404 →
      setupWorkflowDecision r = .fail) ∧
    (r.status = none → ¬(r.errMsg = none ∧ r.status = some 200 ∧ r.sha ≠ none) →
      setupWorkflowDecision r = .write "Add repository sync workflow" none) := by
  refine ⟨rfl, ?_, ?_, ?_, ?_⟩
  · intro h1
    unfold setupWorkflowDecision
    rw [if_pos h1]
  · intro h404
    have h1 : ¬(r.errMsg = none ∧ r.status = some 200 ∧ r.sha ≠ none) := by
      rintro ⟨-, h2, -⟩
      rw [h404] at h2
      cases h2
    unfold setupWorkflowDecision
    rw [if_neg h1, if_neg]
    rintro ⟨-, hne⟩
    exact hne h404
  · intro h1 h2 h3
    unfold setupWorkflowDecision
    rw [if_neg h1, if_pos ⟨h2, h3⟩]
  · intro hnone h1
    unfold setupWorkflowDecision
    rw [if_neg h1, if_neg]
    rintro ⟨hne, -⟩
    exact hne hnone

/-- C7 witness: existing content is updated with its version token. -/
theorem c7_setup_decision_witness :
    setupWorkflowDecision ⟨none, some 200, some "abc123"⟩ =
      .write "Update repository sync workflow" (some "abc123") :=
  (c7_setup_decision ⟨none, some 200, some "abc123"⟩).2.1 ⟨rfl, rfl, by simp⟩

/-! ### C3 — header and top-level layout of the serialized document -/

/-- C3 counterexample: the serializer sorts map keys, so the top-level
mappings are emitted in the order `jobs`, `name`, `on` — not `name`, `on`,
`jobs` as the claim states. -/
theorem c3_counterexample :
    renderedTopKeys (workflowValue ⟨"P", "M", "main", "main", "0 * * * *", true⟩) =
      ["jobs", "name", "on"] ∧
    (["jobs", "name", "on"] : List String) ≠ ["name", "on", "jobs"] :=
  ⟨rfl, by decide⟩

/-- C3 (amended): the serialized workflow text begins with the fixed comment
header, the top-level mappings follow in the encoder's sorted key order
`jobs`, `name`, `on`, and the `on` mapping always carries all three triggers
simultaneously: a push trigger, a schedule trigger with the cron expression,
and a manual workflow_dispatch trigger. -/
theorem c3_header_and_order (d : WorkflowTemplate) :
    generateWorkflowYAML d = yamlHeader ++ renderDoc (workflowValue d) ∧
    hasPrefixB (generateWorkflowYAML d) yamlHeader = true ∧
    renderedTopKeys (workflowValue d) = ["jobs", "name", "on"] ∧
    lookupY (workflowEntries d) "on" =
      some (.map [("push", .map []),
                  ("schedule", .seq [.map [("cron", .str d.CronSchedule)]]),
                  ("workflow_dispatch", .map [])]) := by
  refine ⟨rfl, ?_, rfl, rfl⟩
  exact hasPrefixB_left yamlHeader (renderDoc (workflowValue d))

/-! ### C8 — determinism of Generate -/

/-- C8: serialization is invariant under the order in which the top-level
map's entries are iterated (Go map iteration is randomized; yaml.v3 sorts
the keys before emitting), so repeated generation from the same
configuration is byte-identical: any two entry orders produce the same
serialized document, equal to `generateWorkflowYAML`'s output after the
header. -/
theorem c8_generate_deterministic (d : WorkflowTemplate) (l₁ l₂ : List (String × Yaml))
    (h₁ : l₁.Perm (workflowEntries d)) (h₂ : l₂.Perm (workflowEntries d)) :
    renderDoc (.map l₁) = renderDoc (.map l₂) ∧
    addComments (renderDoc (.map l₁)) = generateWorkflowYAML d := by
  have hnd : ((workflowEntries d).map Prod.fst).Nodup := by
    simp [workflowEntries]
  have hb : ∀ l : List (String × Yaml), l.Perm (workflowEntries d) →
      renderDoc (.map l) = renderDoc (workflowValue d) := by
    intro l hl
    have hne : l ≠ [] := by
      intro h
      subst h
      have := hl.length_eq
      simp [workflowEntries] at this
    unfold renderDoc workflowValue
    rw [renderYaml_map_congr 16 0 hne (by simp [workflowEntries])
      (sortPairs_eq_of_perm hl hnd)]
  refine ⟨(hb l₁ h₁).trans (hb l₂ h₂).symm, ?_⟩
  rw [hb l₁ h₁]
  rfl

/-- C8 witness: a concrete permutation of the top-level entries renders
byte-identically to the source order. -/
theorem c8_generate_deterministic_witness :
    renderDoc (.map [("on", .map (onEntries ⟨"P", "M", "main", "main", "0 * * * *", true⟩)),
        ("name", .str "Sync Primary Repository to GitHub Mirror"),
        ("jobs", .map (jobsEntries ⟨"P", "M", "main", "main", "0 * * * *", true⟩))]) =
      renderDoc (.map (workflowEntries ⟨"P", "M", "main", "main", "0 * * * *", true⟩)) ∧
    addComments (renderDoc (.map [("on", .map (onEntries ⟨"P", "M", "main", "main", "0 * * * *", true⟩)),
        ("name", .str "Sync Primary Repository to GitHub Mirror"),
        ("jobs", .map (jobsEntries ⟨"P", "M", "main", "main", "0 * * * *", true⟩))])) =
      generateWorkflowYAML ⟨"P", "M", "main", "main", "0 * * * *", true⟩ :=
  c8_generate_deterministic ⟨"P", "M", "main", "main", "0 * * * *", true⟩ _ _
    (List.Perm.swap ("name", Yaml.str "Sync Primary Repository to GitHub Mirror")
      ("on", Yaml.map (onEntries ⟨"P", "M", "main", "main", "0 * * * *", true⟩))
      [("jobs", Yaml.map (jobsEntries ⟨"P", "M", "main", "main", "0 * * * *", true⟩))])
    (List.Perm.refl _)

/-! ### C9 — the four steps of the sync job -/

/-- C9: for every configuration the generated job contains exactly four
steps in this order: the GitHub-Actions environment guard (exiting non-zero
outside the platform), the full-history checkout (`fetch-depth: 0`), the
fixed git identity configuration, and the sync step running the synthesized
script with the GITHUB_TOKEN secret bound in its environment. -/
theorem c9_four_steps (d : WorkflowTemplate) :
    stepsOf d = some (.seq [
      .map [("name", .str "Validate Github Actions Environment"),
            ("run", .str "if [ \"$GITHUB_ACTIONS\" != \"true\" ]; then echo \x27This script must be run in a GitHub Actions environment.\x27; exit 1; fi")],
      .map [("name", .str "Checkout GitHub Mirror"),
            ("uses", .str "actions/checkout@v3"),
            ("with", .map [("fetch-depth", .int 0)])],
      .map [("name", .str "Configure Git"),
            ("run", .str "git config user.name \x27GitHub Actions\x27\ngit config user.email \x27actions@github.com\x27")],
      .map [("name", .str "Sync Primary Repository"),
            ("run", .str (generateSyncScript d)),
            ("env", .map [("GITHUB_TOKEN", .str "$\x7b\x7b secrets.GITHUB_TOKEN \x7d\x7d")])]]) :=
  rfl

/-! ### C5 — the RepositoryReference invariant -/

/-- C5 counterexample: resolution can succeed with an empty name
(`https://github.com/user/` resolves to `(user, "")` because the appended
`.git` becomes the second path segment and is trimmed to nothing), with an
empty owner (an empty first path segment is accepted), and with a name that
still ends in `.git` (only one suffix copy is stripped). -/
theorem c5_counterexample :
    ops_parseGitHubURL "https://github.com/user/" = .ok ("user", "") ∧
    ops_parseGitHubURL "https://github.com//user/repo" = .ok ("", "user") ∧
    ops_parseGitHubURL "https://github.com/user/repo.git.git" = .ok ("user", "repo.git") ∧
    hasSuffixB "repo.git" ".git" = true :=
  ⟨rfl, rfl, rfl, rfl⟩

/-- C5 (amended): on every successful resolution the returned pair is
exactly the first two segments of the split the source performs — the
owner is the first segment verbatim and the name is the second segment
with a single trailing `.git` stripped, where the segments come from
splitting either the parsed URL's slash-trimmed path (HTTP/HTTPS branch)
or the prefix-trimmed SSH remainder.  Consequently the name can end in
`.git` only when its segment ended in `.git.git`, and owner or name are
empty exactly when their segments are (no non-emptiness is enforced). -/
theorem c5_resolution_invariant (s o n : String)
    (h : ops_parseGitHubURL s = .ok (o, n)) :
    ∃ (p0 p1 : String) (rest : List String),
      o = p0 ∧ n = trimSuffixStr p1 ".git" ∧
      (hasSuffixB n ".git" = true → hasSuffixB p1 ".git.git" = true) ∧
      ((∃ u : GoURL, goURLParse (ensureGitExtension s) = .ok u ∧
          (u.scheme = "http" ∨ u.scheme = "https") ∧
          splitOnSlash (trimPrefixStr u.path "/") = p0 :: p1 :: rest) ∨
        (hasPrefixB s "git@github.com:" = true ∧
          splitOnSlash (trimPrefixStr s "git@github.com:") = p0 :: p1 :: rest)) := by
  simp only [ops_parseGitHubURL] at h
  split at h
  · exact absurd h (by simp)
  · rename_i u hequ
    split at h
    · rename_i hsch
      split at h
      · rename_i p0 p1 rest heq
        simp only [Except.ok.injEq, Prod.mk.injEq] at h
        refine ⟨p0, p1, rest, h.1.symm, h.2.symm, ?_, Or.inl ⟨u, hequ, hsch, heq⟩⟩
        intro hs
        rw [← h.2] at hs
        exact git_suffix_of_trim_git hs
      · exact absurd h (by simp)
    · rename_i hsch
      split at h
      · rename_i hpre
        split at h
        · rename_i p0 p1 rest heq
          simp only [Except.ok.injEq, Prod.mk.injEq] at h
          refine ⟨p0, p1, rest, h.1.symm, h.2.symm, ?_, Or.inr ⟨hpre, heq⟩⟩
          intro hs
          rw [← h.2] at hs
          exact git_suffix_of_trim_git hs
        · exact absurd h (by simp)
      · exact absurd h (by simp)

/-- C5 witness: the amended invariant at the double-suffix input, where the
program's own path split is `["user", "repo.git.git"]`. -/
theorem c5_resolution_invariant_witness :
    ∃ (p0 p1 : String) (rest : List String),
      ("user" : String) = p0 ∧ ("repo.git" : String) = trimSuffixStr p1 ".git" ∧
      (hasSuffixB "repo.git" ".git" = true → hasSuffixB p1 ".git.git" = true) ∧
      ((∃ u : GoURL,
          goURLParse (ensureGitExtension "https://github.com/user/repo.git.git") = .ok u ∧
          (u.scheme = "http" ∨ u.scheme = "https") ∧
          splitOnSlash (trimPrefixStr u.path "/") = p0 :: p1 :: rest) ∨
        (hasPrefixB "https://github.com/user/repo.git.git" "git@github.com:" = true ∧
          splitOnSlash (trimPrefixStr "https://github.com/user/repo.git.git"
            "git@github.com:") = p0 :: p1 :: rest)) :=
  c5_resolution_invariant "https://github.com/user/repo.git.git" "user" "repo.git" rfl

/-! ### C6 — helper lemmas for URL resolution -/

theorem memB_append (c : Char) : ∀ a b : List Char,
    memB c (a ++ b) = (memB c a || memB c b)
  | [], _ => rfl
  | x :: xs, b => by
    by_cases hx : x = c
    · simp [memB, hx]
    · simp [memB, hx, memB_append c xs b]

theorem breakAtChar_fst_append {c : Char} : ∀ (a b : List Char), memB c a = false →
    (breakAtChar c (a ++ b)).1 = a ++ (breakAtChar c b).1
  | [], _, _ => rfl
  | x :: xs, b, h => by
    simp only [memB] at h
    by_cases hx : x = c
    · simp [hx] at h
    · simp only [hx, if_false] at h
      simp [breakAtChar, hx, breakAtChar_fst_append xs b h]

/-- A `.git` suffix cannot straddle the final path separator: if the last
segment does not end in `.git`, the whole string does not either. -/
theorem git_suffix_slash {A : List Char} {N : String}
    (hN : hasSuffixB N ".git" = false) :
    hasSuffixB ⟨A ++ '/' :: N.data⟩ ".git" = false := by
  rw [Bool.eq_false_iff]
  intro hs
  rw [hasSuffixB_iff] at hs
  have hb : ('/' :: N.data) <:+ A ++ '/' :: N.data := List.suffix_append A _
  rcases List.suffix_or_suffix_of_suffix hs hb with hc | hc
  · obtain ⟨p, hp⟩ := hc
    cases p with
    | nil =>
      simp only [List.nil_append] at hp
      have h0 : ('/' :: N.data).head? = (".git" : String).data.head? :=
        (congrArg List.head? hp).symm
      simp only [List.head?_cons] at h0
      injection h0 with h1
      exact absurd h1 (by decide)
    | cons x xs =>
      simp only [List.cons_append, List.cons.injEq] at hp
      have hsuf : hasSuffixB N ".git" = true :=
        (hasSuffixB_iff N ".git").mpr ⟨xs, hp.2⟩
      rw [hN] at hsuf
      cases hsuf
  · have hmem : '/' ∈ (".git" : String).data := hc.subset (List.mem_cons_self _ _)
    exact absurd hmem (by decide)

/-- A string that begins with the literal `a` also begins with any literal
prefix of `a`. -/
theorem hasPrefixB_trans_lit {a : String} (s p : String)
    (hp : isPrefB p.data a.data = true) : hasPrefixB (a ++ s) p = true := by
  rw [hasPrefixB_iff, String.data_append]
  exact ((isPrefB_iff _ _).mp hp).trans (List.prefix_append _ _)

theorem trimPrefix_append (pre s : String) : trimPrefixStr (pre ++ s) pre = s := by
  unfold trimPrefixStr
  rw [hasPrefixB_left]
  simp only [if_true, String.data_append, List.drop_left]

theorem splitOnSlash_pair {O N : String} (hO : memB '/' O.data = false)
    (hN : memB '/' N.data = false) : splitOnSlash (O ++ ("/" ++ N)) = [O, N] := by
  unfold splitOnSlash
  have hd : (O ++ ("/" ++ N)).data = O.data ++ '/' :: N.data := by
    rw [String.data_append]
    rfl
  rw [hd, splitOnCharL_append _ hO, splitOnCharL_of_not_mem hN]
  rfl

/-- `net/url.Parse` on a control-free `https://` URL: the authority runs to
the next slash and is validated by `hostCheck`, the path is the
remainder. -/
theorem goURLParse_https_t (t : String)
    (hctl : ("https://" ++ t).data.any isCTL = false) :
    goURLParse ("https://" ++ t) =
      (match hostCheck (breakAtChar '/' t.data).1 with
       | .error e => .error e
       | .ok _ =>
         match (breakAtChar '/' t.data).2 with
         | none => .ok ⟨"https", ⟨(breakAtChar '/' t.data).1⟩, ""⟩
         | some p => .ok ⟨"https", ⟨(breakAtChar '/' t.data).1⟩, ⟨'/' :: p⟩⟩) := by
  unfold goURLParse
  rw [if_neg (by rw [hctl]; exact Bool.false_ne_true)]
  rfl

/-- `net/url.Parse` on a control-free `git@github.com:` URL reaches the
scheme-less colon check. -/
theorem goURLParse_git_at (r : String)
    (hctl : ("git@github.com:" ++ r).data.any isCTL = false) :
    goURLParse ("git@github.com:" ++ r) =
      (if memB ':' (breakAtChar '/' (("git@github.com:" ++ r).data)).1 then
        .error "first path segment in URL cannot contain colon"
      else .ok ⟨"", "", "git@github.com:" ++ r⟩) := by
  unfold goURLParse
  rw [if_neg (by rw [hctl]; exact Bool.false_ne_true)]
  rfl

/-- The first path segment of a control-free `git@github.com:`-prefixed
string always contains the colon, so `net/url.Parse` always rejects it. -/
theorem goURLParse_ssh_error (r : String)
    (hctl : ("git@github.com:" ++ r).data.any isCTL = false) :
    goURLParse ("git@github.com:" ++ r) =
      .error "first path segment in URL cannot contain colon" := by
  rw [goURLParse_git_at r hctl, if_pos]
  have hd : ("git@github.com:" ++ r).data = "git@github.com:".data ++ r.data :=
    String.data_append _ _
  rw [hd, breakAtChar_fst_append _ _ (by decide), memB_append]
  simp only [Bool.or_eq_true]
  exact Or.inl (by decide)

theorem goURLParse_https_pair {host O N : String} (hhost : memB '/' host.data = false)
    (hctl : ("https://" ++ (host ++ ("/" ++ (O ++ ("/" ++ N))))).data.any isCTL = false)
    (hhc : hostCheck host.data = .ok ()) :
    goURLParse ("https://" ++ (host ++ ("/" ++ (O ++ ("/" ++ N))))) =
      .ok ⟨"https", host, "/" ++ (O ++ ("/" ++ N))⟩ := by
  rw [goURLParse_https_t _ hctl]
  have hd : (host ++ ("/" ++ (O ++ ("/" ++ N)))).data =
      host.data ++ '/' :: (O ++ ("/" ++ N)).data := by
    rw [String.data_append]
    rfl
  have hbk : breakAtChar '/' ((host ++ ("/" ++ (O ++ ("/" ++ N)))).data) =
      (host.data, some ((O ++ ("/" ++ N)).data)) := by
    rw [hd]
    exact breakAtChar_append _ hhost
  rw [hbk]
  simp only [hhc]
  rfl

/-- `parseGitHubURL` from `pkg/git/ops.go` rejects every control-free
`git@github.com:`-prefixed location: the URL pre-parse fails before the SSH
branch can run. -/
theorem ops_ssh_error (r : String)
    (hctl : ("git@github.com:" ++ r).data.any isCTL = false) :
    ops_parseGitHubURL ("git@github.com:" ++ r) =
      .error "invalid URL: first path segment in URL cannot contain colon" := by
  simp only [ops_parseGitHubURL]
  by_cases hs : hasSuffixB ("git@github.com:" ++ r) ".git" = true
  · rw [show ensureGitExtension ("git@github.com:" ++ r) = "git@github.com:" ++ r by
      unfold ensureGitExtension; rw [if_pos hs]]
    rw [goURLParse_ssh_error r hctl]
    rfl
  · have hctl2 : ("git@github.com:" ++ (r ++ ".git")).data.any isCTL = false := by
      have h1 : ("git@github.com:" ++ (r ++ ".git")).data =
          ("git@github.com:" ++ r).data ++ (".git" : String).data := by
        simp [String.data_append]
      rw [h1, List.any_append, hctl]
      decide
    rw [show ensureGitExtension ("git@github.com:" ++ r) =
        "git@github.com:" ++ (r ++ ".git") by
      unfold ensureGitExtension
      rw [if_neg hs, String.append_assoc]]
    rw [goURLParse_ssh_error (r ++ ".git") hctl2]
    rfl

/-- Reduction of the installer's resolver once the URL parse and the path
split are known. -/
theorem gh_of_parsed {s : String} {u : GoURL}
    (hp : hasPrefixB s "http://" = true ∨ hasPrefixB s "https://" = true)
    (hu : goURLParse s = .ok u) {O N : String}
    (hsplit : splitOnSlash (trimPrefixStr u.path "/") = [O, N]) :
    gh_parseGitHubURL s = .ok (O, trimSuffixStr N ".git") := by
  unfold gh_parseGitHubURL
  rw [if_pos hp]
  simp only [hu]
  rw [hsplit]

/-- Reduction of the validator's resolver once the URL parse of the
normalized location and the path split are known. -/
theorem ops_of_parsed {s : String} {u : GoURL}
    (hu : goURLParse (ensureGitExtension s) = .ok u)
    (hsch : u.scheme = "http" ∨ u.scheme = "https") {O N : String}
    (hsplit : splitOnSlash (trimPrefixStr u.path "/") = [O, N]) :
    ops_parseGitHubURL s = .ok (O, trimSuffixStr N ".git") := by
  simp only [ops_parseGitHubURL]
  simp only [hu]
  rw [if_pos hsch, hsplit]

/-- The installer's resolver on a well-formed HTTPS location. -/
theorem gh_https_resolves (host O M : String) (hhost : memB '/' host.data = false)
    (hO : memB '/' O.data = false) (hM : memB '/' M.data = false)
    (hctl : ("https://" ++ (host ++ ("/" ++ (O ++ ("/" ++ M))))).data.any isCTL = false)
    (hhc : hostCheck host.data = .ok ()) :
    gh_parseGitHubURL ("https://" ++ (host ++ ("/" ++ (O ++ ("/" ++ M))))) =
      .ok (O, trimSuffixStr M ".git") := by
  refine gh_of_parsed (Or.inr (hasPrefixB_left "https://" _))
    (goURLParse_https_pair hhost hctl hhc) ?_
  show splitOnSlash (trimPrefixStr ("/" ++ (O ++ ("/" ++ M))) "/") = [O, M]
  rw [trimPrefix_append "/" (O ++ ("/" ++ M))]
  exact splitOnSlash_pair hO hM

/-- The installer's resolver on a well-formed SSH location. -/
theorem gh_ssh_resolves (O M : String) (hO : memB '/' O.data = false)
    (hM : memB '/' M.data = false) :
    gh_parseGitHubURL ("git@github.com:" ++ (O ++ ("/" ++ M))) =
      .ok (O, trimSuffixStr M ".git") := by
  have hpre : hasPrefixB ("git@github.com:" ++ (O ++ ("/" ++ M))) "git@github.com:" = true :=
    hasPrefixB_left _ _
  have hh1 : hasPrefixB ("git@github.com:" ++ (O ++ ("/" ++ M))) "http://" = false :=
    hasPrefixB_false_of_first_ne (p := "git@github.com:") rfl rfl (by decide) hpre
  have hh2 : hasPrefixB ("git@github.com:" ++ (O ++ ("/" ++ M))) "https://" = false :=
    hasPrefixB_false_of_first_ne (p := "git@github.com:") rfl rfl (by decide) hpre
  unfold gh_parseGitHubURL
  rw [if_neg (by simp [hh1, hh2]), if_pos hpre,
    trimPrefix_append "git@github.com:" (O ++ ("/" ++ M)), splitOnSlash_pair hO hM]

/-- C6 counterexample: the validator's resolver (`pkg/git/ops.go`) cannot
resolve any SSH location: its `net/url` pre-parse rejects the colon in the
first path segment, so `git@github.com:user/repo` yields an error, not
`(user, repo)` as the claim requires of both cited resolvers. -/
theorem c6_counterexample :
    ops_parseGitHubURL "git@github.com:user/repo" =
      .error "invalid URL: first path segment in URL cannot contain colon" ∧
    ops_parseGitHubURL "git@github.com:user/repo" ≠ .ok ("user", "repo") := by
  have h0 : ops_parseGitHubURL "git@github.com:user/repo" =
      .error "invalid URL: first path segment in URL cannot contain colon" := rfl
  exact ⟨h0, by rw [h0]; simp⟩

/-- C6 (amended): for a registrable host (ASCII alphanumerics, `-`, `.`)
and well-formed owners and names (no `/`, `?`, `#`, `%`, no control bytes
below 0x20 nor DEL, name without a trailing `.git`), the installer's
resolver maps `https://host/O/N`, `https://host/O/N.git`,
`git@github.com:O/N` and `git@github.com:O/N.git` all to `(O, N)`, and the
validator's resolver agrees on the two HTTPS forms; but the validator's
resolver rejects both SSH forms (its URL pre-parse forbids a colon in the
first path segment), so appending `.git` is immaterial everywhere while the
SSH half of the claim holds only for the installer. -/
theorem c6_git_suffix_invariance (host O N : String)
    (hhost : ∀ c ∈ host.data,
      (48 ≤ c.toNat ∧ c.toNat ≤ 57) ∨ (65 ≤ c.toNat ∧ c.toNat ≤ 90) ∨
      (97 ≤ c.toNat ∧ c.toNat ≤ 122) ∨ c = '-' ∨ c = '.')
    (hO : ∀ c ∈ O.data,
      c ≠ '/' ∧ c ≠ '?' ∧ c ≠ '#' ∧ c ≠ '%' ∧ 31 < c.toNat ∧ c.toNat ≠ 127)
    (hN : ∀ c ∈ N.data,
      c ≠ '/' ∧ c ≠ '?' ∧ c ≠ '#' ∧ c ≠ '%' ∧ 31 < c.toNat ∧ c.toNat ≠ 127)
    (hNg : hasSuffixB N ".git" = false) :
    gh_parseGitHubURL ("https://" ++ host ++ "/" ++ O ++ "/" ++ N) = .ok (O, N) ∧
    gh_parseGitHubURL ("https://" ++ host ++ "/" ++ O ++ "/" ++ N ++ ".git") = .ok (O, N) ∧
    gh_parseGitHubURL ("git@github.com:" ++ O ++ "/" ++ N) = .ok (O, N) ∧
    gh_parseGitHubURL ("git@github.com:" ++ O ++ "/" ++ N ++ ".git") = .ok (O, N) ∧
    ops_parseGitHubURL ("https://" ++ host ++ "/" ++ O ++ "/" ++ N) = .ok (O, N) ∧
    ops_parseGitHubURL ("https://" ++ host ++ "/" ++ O ++ "/" ++ N ++ ".git") = .ok (O, N) ∧
    ops_parseGitHubURL ("git@github.com:" ++ O ++ "/" ++ N) =
      .error "invalid URL: first path segment in URL cannot contain colon" ∧
    ops_parseGitHubURL ("git@github.com:" ++ O ++ "/" ++ N ++ ".git") =
      .error "invalid URL: first path segment in URL cannot contain colon" := by
  have hhostS : memB '/' host.data = false := by
    rw [memB_false_iff]
    intro hc
    have h47 : ('/' : Char).toNat = 47 := rfl
    rcases hhost _ hc with h | h | h | h | h
    · omega
    · omega
    · omega
    · exact absurd h (by decide)
    · exact absurd h (by decide)
  have hOS : memB '/' O.data = false := by
    rw [memB_false_iff]; intro hc; exact (hO _ hc).1 rfl
  have hNS : memB '/' N.data = false := by
    rw [memB_false_iff]; intro hc; exact (hN _ hc).1 rfl
  have hNgS : memB '/' (N ++ ".git").data = false := by
    rw [String.data_append, memB_append, hNS]
    decide
  have hctlHost : host.data.any isCTL = false := by
    rw [Bool.eq_false_iff]
    intro hx
    rw [List.any_eq_true] at hx
    obtain ⟨c, hc, hp⟩ := hx
    simp [isCTL] at hp
    rcases hhost _ hc with h | h | h | h | h
    · omega
    · omega
    · omega
    · subst h; exact absurd hp (by decide)
    · subst h; exact absurd hp (by decide)
  have hctlO : O.data.any isCTL = false := by
    rw [Bool.eq_false_iff]
    intro hx
    rw [List.any_eq_true] at hx
    obtain ⟨c, hc, hp⟩ := hx
    obtain ⟨-, -, -, -, h5, h6⟩ := hO _ hc
    simp [isCTL] at hp
    omega
  have hctlN : N.data.any isCTL = false := by
    rw [Bool.eq_false_iff]
    intro hx
    rw [List.any_eq_true] at hx
    obtain ⟨c, hc, hp⟩ := hx
    obtain ⟨-, -, -, -, h5, h6⟩ := hN _ hc
    simp [isCTL] at hp
    omega
  have hctlL1 : ("https://" ++ (host ++ ("/" ++ (O ++ ("/" ++ N))))).data.any isCTL
      = false := by
    simp only [String.data_append, List.any_append, hctlHost, hctlO, hctlN]
    decide
  have hctlL2 : ("https://" ++ (host ++ ("/" ++ (O ++ ("/" ++ (N ++ ".git")))))).data.any
      isCTL = false := by
    simp only [String.data_append, List.any_append, hctlHost, hctlO, hctlN]
    decide
  have hctlS1 : ("git@github.com:" ++ (O ++ ("/" ++ N))).data.any isCTL = false := by
    simp only [String.data_append, List.any_append, hctlO, hctlN]
    decide
  have hctlS2 : ("git@github.com:" ++ (O ++ ("/" ++ (N ++ ".git")))).data.any isCTL
      = false := by
    simp only [String.data_append, List.any_append, hctlO, hctlN]
    decide
  have hhc : hostCheck host.data = .ok () := by
    have hnb : ¬(host.data.head? = some '[') := by
      intro hh
      have hmem : '[' ∈ host.data := List.mem_of_mem_head? (by rw [hh]; rfl)
      have h91 : ('[' : Char).toNat = 91 := rfl
      rcases hhost _ hmem with h | h | h | h | h
      · omega
      · omega
      · omega
      · exact absurd h (by decide)
      · exact absurd h (by decide)
    have hnc : memB ':' host.data = false := by
      rw [memB_false_iff]
      intro hc
      have h58 : ((':' : Char)).toNat = 58 := rfl
      rcases hhost _ hc with h | h | h | h | h
      · omega
      · omega
      · omega
      · exact absurd h (by decide)
      · exact absurd h (by decide)
    have hall : host.data.all validHostChar = true := by
      rw [List.all_eq_true]
      intro c hc
      rcases hhost _ hc with h | h | h | h | h
      · unfold validHostChar
        rw [decide_eq_true h.1, decide_eq_true h.2]
        simp
      · unfold validHostChar
        rw [decide_eq_true h.1, decide_eq_true h.2]
        simp
      · unfold validHostChar
        rw [decide_eq_true h.1, decide_eq_true h.2]
        simp
      · subst h; decide
      · subst h; decide
    unfold hostCheck
    rw [if_neg hnb, if_neg (by simp [hnc]), if_neg (by simp [hall])]
  have e1 : ("https://" ++ host ++ "/" ++ O ++ "/" ++ N) =
      "https://" ++ (host ++ ("/" ++ (O ++ ("/" ++ N)))) := by
    simp [String.append_assoc]
  have e2 : ("https://" ++ host ++ "/" ++ O ++ "/" ++ N ++ ".git") =
      "https://" ++ (host ++ ("/" ++ (O ++ ("/" ++ (N ++ ".git"))))) := by
    simp [String.append_assoc]
  have e3 : ("git@github.com:" ++ O ++ "/" ++ N) =
      "git@github.com:" ++ (O ++ ("/" ++ N)) := by
    simp [String.append_assoc]
  have e4 : ("git@github.com:" ++ O ++ "/" ++ N ++ ".git") =
      "git@github.com:" ++ (O ++ ("/" ++ (N ++ ".git"))) := by
    simp [String.append_assoc]
  have hL1data : ("https://" ++ (host ++ ("/" ++ (O ++ ("/" ++ N))))).data =
      ("https://".data ++ host.data ++ '/' :: O.data) ++ '/' :: N.data := by
    simp [String.data_append]
  have hL1git : hasSuffixB ("https://" ++ (host ++ ("/" ++ (O ++ ("/" ++ N))))) ".git" = false := by
    rw [show ("https://" ++ (host ++ ("/" ++ (O ++ ("/" ++ N))))) =
      (⟨("https://".data ++ host.data ++ '/' :: O.data) ++ '/' :: N.data⟩ : String) from
      strExt hL1data]
    exact git_suffix_slash hNg
  have hfix1 : ensureGitExtension ("https://" ++ (host ++ ("/" ++ (O ++ ("/" ++ N))))) =
      "https://" ++ (host ++ ("/" ++ (O ++ ("/" ++ (N ++ ".git"))))) := by
    unfold ensureGitExtension
    rw [hL1git]
    simp [String.append_assoc]
  have hfix2 : ensureGitExtension ("https://" ++ (host ++ ("/" ++ (O ++ ("/" ++ (N ++ ".git")))))) =
      "https://" ++ (host ++ ("/" ++ (O ++ ("/" ++ (N ++ ".git"))))) := by
    unfold ensureGitExtension
    rw [show ("https://" ++ (host ++ ("/" ++ (O ++ ("/" ++ (N ++ ".git")))))) =
      ("https://" ++ (host ++ ("/" ++ (O ++ ("/" ++ N))))) ++ ".git" by
        simp [String.append_assoc]]
    rw [hasSuffixB_append_self]
    simp [String.append_assoc]
  refine ⟨?_, ?_, ?_, ?_, ?_, ?_, ?_, ?_⟩
  · rw [e1, gh_https_resolves host O N hhostS hOS hNS hctlL1 hhc,
      trimSuffix_of_not hNg]
  · rw [e2, gh_https_resolves host O (N ++ ".git") hhostS hOS hNgS hctlL2 hhc,
      trimSuffix_append]
  · rw [e3, gh_ssh_resolves O N hOS hNS, trimSuffix_of_not hNg]
  · rw [e4, gh_ssh_resolves O (N ++ ".git") hOS hNgS, trimSuffix_append]
  · rw [e1]
    have := ops_of_parsed (u := ⟨"https", host, "/" ++ (O ++ ("/" ++ (N ++ ".git")))⟩)
      (by rw [hfix1]; exact goURLParse_https_pair hhostS hctlL2 hhc) (Or.inr rfl)
      (O := O) (N := N ++ ".git") (by
        show splitOnSlash (trimPrefixStr ("/" ++ (O ++ ("/" ++ (N ++ ".git")))) "/") = _
        rw [trimPrefix_append "/" (O ++ ("/" ++ (N ++ ".git")))]
        exact splitOnSlash_pair hOS hNgS)
    rw [this, trimSuffix_append]
  · rw [e2]
    have := ops_of_parsed (u := ⟨"https", host, "/" ++ (O ++ ("/" ++ (N ++ ".git")))⟩)
      (by rw [hfix2]; exact goURLParse_https_pair hhostS hctlL2 hhc) (Or.inr rfl)
      (O := O) (N := N ++ ".git") (by
        show splitOnSlash (trimPrefixStr ("/" ++ (O ++ ("/" ++ (N ++ ".git")))) "/") = _
        rw [trimPrefix_append "/" (O ++ ("/" ++ (N ++ ".git")))]
        exact splitOnSlash_pair hOS hNgS)
    rw [this, trimSuffix_append]
  · rw [e3]
    exact ops_ssh_error (O ++ ("/" ++ N)) hctlS1
  · rw [e4]
    exact ops_ssh_error (O ++ ("/" ++ (N ++ ".git"))) hctlS2

/-- C6 witness: the amended behaviour at `github.com/user/repo`. -/
theorem c6_git_suffix_invariance_witness :
    gh_parseGitHubURL ("https://" ++ "github.com" ++ "/" ++ "user" ++ "/" ++ "repo") =
      .ok ("user", "repo") ∧
    gh_parseGitHubURL ("git@github.com:" ++ "user" ++ "/" ++ "repo" ++ ".git") =
      .ok ("user", "repo") ∧
    ops_parseGitHubURL ("git@github.com:" ++ "user" ++ "/" ++ "repo") =
      .error "invalid URL: first path segment in URL cannot contain colon" := by
  have h := c6_git_suffix_invariance "github.com" "user" "repo"
    (by decide) (by decide) (by decide) (by decide)
  exact ⟨h.1, h.2.2.2.1, h.2.2.2.2.2.2.1⟩

end GoSync
